import Mathlib

/-!
# Verification of the metadata-extraction core of `meta.py`

Shallow embedding of the extraction pipeline of `src/meta.py`:
the GPS coordinate converter `convert_gps`, the EXIF tag decoder
`extract_exif_metadata`, the deep ("hidden") metadata scanner
`extract_hidden_metadata`, and the aggregator `extract_image_metadata`.

External collaborators (the filesystem, PIL's `Image.open`, exifread's
`process_file`, hachoir's parser/extractor) are modelled as inputs in an
environment record; the control flow and the record-building logic are
translated from the Python source.  A Python `dict[str, str]` is modelled
as an association list with Python's assignment semantics (`setKey`
replaces the value of an existing key in place, otherwise appends);
`dict.update` is `updateDict`.  Python `float` arithmetic in the GPS
converter is modelled with exact rationals `ℚ`; a raised Python exception
is the `Except.error` branch.
-/

set_option autoImplicit false

namespace MetaPy

/-! ## The record model: Python `dict` as an association list -/

/-- A metadata record: Python's insertion-ordered `dict[str, str]`
(values that are not strings in Python, e.g. the integer file size,
are modelled by their eventual `str` rendering). -/
abbrev Dict := List (String × String)

/-- `m[k] = v` on a Python dict: replace the value at the first entry
holding key `k` (dicts built by assignment hold each key once), else
append the new pair at the end. -/
def setKey : Dict → String → String → Dict
  | [], k, v => [(k, v)]
  | p :: m, k, v => if p.1 = k then (k, v) :: m else p :: setKey m k v

/-- `m.get(k)`: the value at key `k`, looking at the first entry. -/
def getKey (m : Dict) (k : String) : Option String :=
  (m.find? (fun p => p.1 = k)).map (fun p => p.2)

/-- The value at the last entry holding key `k`; on a dict with unique
keys this agrees with `getKey` (`lookupLast_eq_getKey`). -/
def lookupLast : Dict → String → Option String
  | [], _ => none
  | p :: m, k =>
    match lookupLast m k with
    | some v => some v
    | none => if p.1 = k then some p.2 else none

/-- `m.update(src)`: assign every entry of `src` into `m`, in order. -/
def updateDict (m src : Dict) : Dict :=
  src.foldl (fun acc p => setKey acc p.1 p.2) m

/-- The keys of a record. -/
def keys (m : Dict) : List String := m.map Prod.fst

/-- A record holding each key at most once (the invariant of every dict
the Python code builds). -/
def NodupKeys (m : Dict) : Prop := (keys m).Nodup

@[simp] theorem getKey_nil (k : String) : getKey [] k = none := rfl

theorem getKey_cons (p : String × String) (m : Dict) (k : String) :
    getKey (p :: m) k = if p.1 = k then some p.2 else getKey m k := by
  by_cases h : p.1 = k <;> simp [getKey, List.find?, h]

theorem getKey_setKey (m : Dict) (k v k' : String) :
    getKey (setKey m k v) k' = if k' = k then some v else getKey m k' := by
  induction m with
  | nil =>
    by_cases h : k' = k <;> simp [setKey, getKey_cons, h]
    intro h'; exact absurd h'.symm h
  | cons p m ih =>
    by_cases hp : p.1 = k
    · by_cases h : k' = k
      · simp [setKey, hp, getKey_cons, h]
      · subst hp
        have hne : ¬ p.1 = k' := fun h' => h h'.symm
        simp [setKey, getKey_cons, hne, h]
    · by_cases h : k' = k
      · subst h
        simp [setKey, hp, getKey_cons, ih,
          show ¬ p.1 = k' from hp]
      · simp [setKey, hp, getKey_cons, ih, h]

theorem lookupLast_cons (p : String × String) (m : Dict) (k : String) :
    lookupLast (p :: m) k =
      match lookupLast m k with
      | some v => some v
      | none => if p.1 = k then some p.2 else none := rfl

theorem getKey_updateDict (src : Dict) (m : Dict) (k : String) :
    getKey (updateDict m src) k =
      match lookupLast src k with
      | some v => some v
      | none => getKey m k := by
  induction src generalizing m with
  | nil => simp [updateDict, lookupLast]
  | cons p src ih =>
    show getKey (updateDict (setKey m p.1 p.2) src) k = _
    rw [ih, lookupLast_cons]
    cases h : lookupLast src k with
    | some v => simp
    | none =>
      simp only [getKey_setKey]
      by_cases hk : p.1 = k
      · simp [hk]
      · have hk2 : ¬ k = p.1 := fun h' => hk h'.symm
        simp [hk, hk2]

theorem mem_keys_cons (p : String × String) (m : Dict) (a : String) :
    a ∈ keys (p :: m) ↔ a = p.1 ∨ a ∈ keys m := by
  simp [keys]

theorem keys_setKey_mem (m : Dict) (k v : String) (h : k ∈ keys m) :
    keys (setKey m k v) = keys m := by
  induction m with
  | nil => simp [keys] at h
  | cons p m ih =>
    by_cases hp : p.1 = k
    · show keys (if p.1 = k then (k, v) :: m else p :: setKey m k v) = _
      rw [if_pos hp]
      show k :: keys m = p.1 :: keys m
      rw [hp]
    · show keys (if p.1 = k then (k, v) :: m else p :: setKey m k v) = _
      rw [if_neg hp]
      show p.1 :: keys (setKey m k v) = p.1 :: keys m
      have hm : k ∈ keys m := by
        rcases (mem_keys_cons p m k).mp h with h' | h'
        · exact absurd h'.symm hp
        · exact h'
      rw [ih hm]

theorem keys_setKey_not_mem (m : Dict) (k v : String) (h : k ∉ keys m) :
    keys (setKey m k v) = keys m ++ [k] := by
  induction m with
  | nil => rfl
  | cons p m ih =>
    have hp : ¬ p.1 = k := fun he => h ((mem_keys_cons p m k).mpr (Or.inl he.symm))
    have hm : k ∉ keys m := fun hin => h ((mem_keys_cons p m k).mpr (Or.inr hin))
    show keys (if p.1 = k then (k, v) :: m else p :: setKey m k v) = _
    rw [if_neg hp]
    show p.1 :: keys (setKey m k v) = (p.1 :: keys m) ++ [k]
    rw [ih hm]
    rfl

theorem mem_keys_setKey (m : Dict) (k v a : String) (h : a ∈ keys (setKey m k v)) :
    a ∈ keys m ∨ a = k := by
  by_cases hk : k ∈ keys m
  · rw [keys_setKey_mem m k v hk] at h
    exact Or.inl h
  · rw [keys_setKey_not_mem m k v hk] at h
    rcases List.mem_append.mp h with h' | h'
    · exact Or.inl h'
    · exact Or.inr (List.mem_singleton.mp h')

theorem getKey_eq_none (m : Dict) (k : String) :
    getKey m k = none ↔ k ∉ keys m := by
  induction m with
  | nil => simp [keys]
  | cons p m ih =>
    rw [getKey_cons, mem_keys_cons]
    by_cases hp : p.1 = k
    · simp [hp]
    · have hkp : ¬ k = p.1 := fun h => hp h.symm
      simp [hp, hkp, ih]

theorem nodupKeys_setKey (m : Dict) (k v : String) (h : NodupKeys m) :
    NodupKeys (setKey m k v) := by
  unfold NodupKeys at *
  by_cases hk : k ∈ keys m
  · rw [keys_setKey_mem m k v hk]; exact h
  · rw [keys_setKey_not_mem m k v hk]
    rw [List.nodup_append]
    exact ⟨h, List.nodup_singleton k, by
      intro a ha hb
      rw [List.mem_singleton] at hb
      exact hk (hb ▸ ha)⟩

theorem nodupKeys_foldl_setKey (src : Dict) (m : Dict) (h : NodupKeys m) :
    NodupKeys (src.foldl (fun acc p => setKey acc p.1 p.2) m) := by
  induction src generalizing m with
  | nil => exact h
  | cons p src ih => exact ih _ (nodupKeys_setKey m p.1 p.2 h)

theorem nodupKeys_updateDict (m src : Dict) (h : NodupKeys m) :
    NodupKeys (updateDict m src) :=
  nodupKeys_foldl_setKey src m h

theorem lookupLast_eq_getKey (m : Dict) (h : NodupKeys m) (k : String) :
    lookupLast m k = getKey m k := by
  induction m with
  | nil => rfl
  | cons p m ih =>
    have hcons : (p.1 :: keys m).Nodup := h
    have hnd : NodupKeys m := (List.nodup_cons.mp hcons).2
    have hhead : p.1 ∉ keys m := (List.nodup_cons.mp hcons).1
    rw [lookupLast_cons, getKey_cons, ih hnd]
    by_cases hp : p.1 = k
    · have h0 : getKey m k = none := (getKey_eq_none m k).mpr (hp ▸ hhead)
      simp [h0, hp]
    · cases hg : getKey m k <;> simp [hp, hg]

/-! ## GPS coordinate converter (`convert_gps` in `meta.py`)

Python `float` values are modelled as exact rationals; a raised
`ZeroDivisionError` (division by a zero denominator) or `ValueError`
(unpacking a list whose length is not 3) is an `Except.error`. -/

/-- One EXIF rational sub-value: `v.num` / `v.den` of exifread's `Ratio`. -/
structure Rat2 where
  num : Int
  den : Int
deriving DecidableEq

/-- The Python exceptions the embedded code can raise. -/
inductive PyErr where
  | zeroDivision
  | valueError
deriving DecidableEq

/-- `float(v.num) / float(v.den)` (only applied after the zero-denominator
check, so the `ℚ` division is never division by zero there). -/
def ratDiv (v : Rat2) : ℚ := (v.num : ℚ) / (v.den : ℚ)

/-- The inner `convert_to_degrees` of `convert_gps`: the list comprehension
`[float(v.num) / float(v.den) for v in values]` raises `ZeroDivisionError`
on a zero denominator; the unpacking `d, m, s = ...` raises `ValueError`
unless the list has exactly three elements. -/
def convert_to_degrees (values : List Rat2) : Except PyErr ℚ :=
  if values.any (fun v => v.den = 0) then .error .zeroDivision
  else
    match values with
    | [d, m, s] => .ok (ratDiv d + ratDiv m / 60 + ratDiv s / 3600)
    | _ => .error .valueError

/-- `convert_gps(value, ref)` from `meta.py`, on the rational list
(`value.values` for an exifread tag object): decimal degrees, negated
when `ref` is `"S"` or `"W"`. -/
def convert_gps (value : List Rat2) (ref : String) : Except PyErr ℚ :=
  match convert_to_degrees value with
  | .error e => .error e
  | .ok degrees =>
      if ref = "S" ∨ ref = "W" then .ok (-degrees) else .ok degrees

/-! ## EXIF tag decoder (`extract_exif_metadata` in `meta.py`)

The exifread collaborator (`exifread.process_file`) is external: its
result dict is an input.  The decoder's own logic — stringify every tag,
synthesize `"GPS Coordinates"` when all four GPS tags are present, default
`"Camera Model"` and `"Software"` — is translated from the source. -/

/-- One exifread tag value: its `str(...)` rendering and, for the GPS
coordinate tags, the structured rational list `value.values`. -/
structure ExifVal where
  printable : String
  values : List Rat2
deriving DecidableEq

/-- `tags.get(k)` on exifread's result dict.  A duplicate key in the
modelling list behaves like repeated dict insertion: the last entry wins,
matching the `foldl setKey` used for the stringifying loop. -/
def tagsGet (tags : List (String × ExifVal)) (k : String) : Option ExifVal :=
  (tags.reverse.find? (fun p => p.1 = k)).map (fun p => p.2)

/-- The report rendering of one decimal-degree value (abstracts Python's
`float`-to-`str` rendering; no claim depends on its exact shape). -/
def qRender (q : ℚ) : String :=
  toString q.num ++ (if q.den = 1 then "" else "/" ++ toString q.den)

/-- Lines 51–59 of `meta.py`: when all four GPS tags are present (tag
objects are always truthy), convert latitude and longitude and insert the
synthetic `"GPS Coordinates"` key.  There is no `try` around these calls:
a conversion failure propagates. -/
def gpsStep (tags : List (String × ExifVal)) (m : Dict) : Except PyErr Dict :=
  match tagsGet tags "GPS GPSLatitude", tagsGet tags "GPS GPSLongitude",
        tagsGet tags "GPS GPSLatitudeRef", tagsGet tags "GPS GPSLongitudeRef" with
  | some gpsLat, some gpsLon, some latRef, some lonRef =>
      match convert_gps gpsLat.values latRef.printable with
      | .error e => .error e
      | .ok latitude =>
          match convert_gps gpsLon.values lonRef.printable with
          | .error e => .error e
          | .ok longitude =>
              .ok (setKey m "GPS Coordinates"
                (qRender latitude ++ ", " ++ qRender longitude))
  | _, _, _, _ => .ok m

/-- Lines 48–49 of `meta.py`: `metadata[tag] = str(value)` for every tag
of the exifread dict, into the initially empty record. -/
def exifBase (tags : List (String × ExifVal)) : Dict :=
  tags.foldl (fun acc p => setKey acc p.1 p.2.printable) []

/-- `tags.get("Image Model", "Unknown")` (the record keeps the tag's
`str` rendering). -/
def cameraModelVal (tags : List (String × ExifVal)) : String :=
  match tagsGet tags "Image Model" with
  | some v => v.printable
  | none => "Unknown"

/-- `tags.get("Image Software", "Unknown")`. -/
def softwareVal (tags : List (String × ExifVal)) : String :=
  match tagsGet tags "Image Software" with
  | some v => v.printable
  | none => "Unknown"

/-- `extract_exif_metadata` from `meta.py`, as a function of the tag dict
that `exifread.process_file` returns for the opened file: every tag is
stringified into the record, then the GPS step runs, then `"Camera Model"`
and `"Software"` are set (defaulting to `"Unknown"`). -/
def extract_exif_metadata (tags : List (String × ExifVal)) : Except PyErr Dict :=
  match gpsStep tags (exifBase tags) with
  | .error e => .error e
  | .ok m1 =>
      .ok (setKey (setKey m1 "Camera Model" (cameraModelVal tags))
        "Software" (softwareVal tags))

/-! ## Deep metadata scanner (`extract_hidden_metadata` in `meta.py`)

The hachoir collaborator is external; its possible behaviours at the three
call sites inside the `try` block are an input.  Exceptions can only be
raised by the collaborator calls themselves: the line split and the dict
insertions cannot raise, so every caught exception finds the local
`metadata` dict still empty. -/

/-- What the hachoir collaborator does for one file: `createParser` raises
or returns `None`; `extractMetadata` raises or returns a falsy extractor;
`exportPlaintext` raises (including the `TypeError` from iterating a
`None` result); or the scan yields a list of plaintext lines. -/
inductive HachoirOutcome where
  | createRaise (msg : String)
  | createNone
  | extractRaise (msg : String)
  | extractNone
  | exportRaise (msg : String)
  | exportLines (lines : List String)
deriving DecidableEq

/-- First occurrence of `": "` in a character list: the part before and
the part after, or `none` when the separator does not occur. -/
def splitOnColonSpace : List Char → Option (List Char × List Char)
  | ':' :: ' ' :: rest => some ([], rest)
  | c :: rest => (splitOnColonSpace rest).map (fun pr => (c :: pr.1, pr.2))
  | [] => none

/-- Line 91 of `meta.py`:
`key, value = item.split(": ", 1) if ": " in item else (item, "Unknown")`. -/
def splitLine (item : String) : String × String :=
  match splitOnColonSpace item.data with
  | some (k, v) => (⟨k⟩, ⟨v⟩)
  | none => (item, "Unknown")

/-- `extract_hidden_metadata` from `meta.py`, as a function of the hachoir
collaborator's behaviour.  Every raising outcome happens before any
insertion, so the caught exception produces the single-entry error
record; a falsy extractor skips the loop and returns the empty record. -/
def extract_hidden_metadata (h : HachoirOutcome) : Dict :=
  match h with
  | .createRaise msg => [("Hidden Metadata Error", msg)]
  | .createNone => [("Hidden Metadata", "Unable to parse")]
  | .extractRaise msg => [("Hidden Metadata Error", msg)]
  | .extractNone => []
  | .exportRaise msg => [("Hidden Metadata Error", msg)]
  | .exportLines lines =>
      lines.foldl
        (fun acc item => setKey acc (splitLine item).1 (splitLine item).2) []

/-! ## Container header stage and aggregator (`extract_image_metadata`) -/

/-- What PIL's `Image.open` exposes on success: the attributes lines
26–31 of `meta.py` read.  `bits` is `None` when `hasattr(img, "bits")`
fails; `compression` is `img.info.get("compression")`; `iccProfile` is
the truthiness of `img.info.get("icc_profile")`. -/
structure PILInfo where
  format : String
  mode : String
  width : Nat
  height : Nat
  bits : Option Nat
  compression : Option String
  iccProfile : Bool
deriving DecidableEq

/-- The external collaborators' behaviour for one input file whose
filesystem attributes are readable: the seeded attributes, the PIL
outcome (`Except.error` = `Image.open` raised), the exifread tag dict,
and the hachoir outcome. -/
structure Env where
  basename : String
  fileSize : Nat
  ctime : String
  mtime : String
  pil : Except String PILInfo
  tags : List (String × ExifVal)
  hachoir : HachoirOutcome

/-- Lines 17–22 of `meta.py`: the record seeded from filesystem
attributes (`File Size (bytes)` is an `int` in Python; modelled by its
`str` rendering). -/
def seedRecord (env : Env) : Dict :=
  [("File Name", env.basename),
   ("File Size (bytes)", toString env.fileSize),
   ("Creation Time", env.ctime),
   ("Modification Time", env.mtime)]

/-- Lines 24–33 of `meta.py`: the `try` block around `Image.open`.  On
success the six header fields are assigned; on failure the exception is
caught and recorded under `"PIL Error"`. -/
def pilStage (env : Env) (m : Dict) : Dict :=
  match env.pil with
  | .ok info =>
      let m := setKey m "Format" info.format
      let m := setKey m "Mode" info.mode
      let m := setKey m "Size (pixels)"
        (toString info.width ++ "x" ++ toString info.height)
      let m := setKey m "Bit Depth"
        (match info.bits with
         | some b => toString b
         | none => "Unknown")
      let m := setKey m "Compression"
        (match info.compression with
         | some c => c
         | none => "None")
      setKey m "ICC Profile" (if info.iccProfile then "Present" else "None")
  | .error e => setKey m "PIL Error" e

/-- Python `str.lower()` (character-wise, as on the ASCII paths the
extension test cares about). -/
def pyLower (s : String) : String := ⟨s.data.map Char.toLower⟩

/-- Python `str.endswith(suffix)`. -/
def pyEndsWith (s suffix : String) : Bool := suffix.data.isSuffixOf s.data

/-- `extract_image_metadata` from `meta.py`: seed from the filesystem,
run the guarded PIL stage, merge the EXIF decoder's output unless the
lowered path ends with `".heic"` (this call is NOT guarded: an exception
from the EXIF stage propagates), then merge the deep-scan output. -/
def extract_image_metadata (image_path : String) (env : Env) :
    Except PyErr Dict :=
  let m1 := pilStage env (seedRecord env)
  if pyEndsWith (pyLower image_path) ".heic" then
    .ok (updateDict m1 (extract_hidden_metadata env.hachoir))
  else
    match extract_exif_metadata env.tags with
    | .error e => .error e
    | .ok ex =>
        .ok (updateDict (updateDict m1 ex) (extract_hidden_metadata env.hachoir))

/-! ## Structural lemmas about the stages -/

theorem nodupKeys_nil : NodupKeys ([] : Dict) := List.nodup_nil

theorem nodupKeys_foldl_setKey_gen {α : Type} (f g : α → String) (l : List α)
    (m : Dict) (h : NodupKeys m) :
    NodupKeys (l.foldl (fun acc x => setKey acc (f x) (g x)) m) := by
  induction l generalizing m with
  | nil => exact h
  | cons x l ih => exact ih _ (nodupKeys_setKey m (f x) (g x) h)

theorem nodupKeys_exifBase (tags : List (String × ExifVal)) :
    NodupKeys (exifBase tags) := by
  unfold exifBase
  exact nodupKeys_foldl_setKey_gen (fun p => p.1) (fun p => p.2.printable)
    tags [] nodupKeys_nil

theorem nodupKeys_extract_hidden (h : HachoirOutcome) :
    NodupKeys (extract_hidden_metadata h) := by
  cases h with
  | exportLines lines =>
      unfold extract_hidden_metadata
      exact nodupKeys_foldl_setKey_gen (fun item => (splitLine item).1)
        (fun item => (splitLine item).2) lines [] nodupKeys_nil
  | createRaise msg => simp [extract_hidden_metadata, NodupKeys, keys]
  | createNone => simp [extract_hidden_metadata, NodupKeys, keys]
  | extractRaise msg => simp [extract_hidden_metadata, NodupKeys, keys]
  | extractNone => simp [extract_hidden_metadata, NodupKeys, keys]
  | exportRaise msg => simp [extract_hidden_metadata, NodupKeys, keys]

theorem gpsStep_ok_cases (tags : List (String × ExifVal)) (m m' : Dict)
    (h : gpsStep tags m = .ok m') :
    m' = m ∨ ∃ s, m' = setKey m "GPS Coordinates" s := by
  unfold gpsStep at h
  split at h
  · split at h
    · exact absurd h (by simp)
    · split at h
      · exact absurd h (by simp)
      · right
        exact ⟨_, (Except.ok.inj h).symm⟩
  · left
    exact (Except.ok.inj h).symm

theorem gpsStep_err (tags : List (String × ExifVal)) (m : Dict)
    (gpsLat gpsLon latRef lonRef : ExifVal) (e : PyErr)
    (h1 : tagsGet tags "GPS GPSLatitude" = some gpsLat)
    (h2 : tagsGet tags "GPS GPSLongitude" = some gpsLon)
    (h3 : tagsGet tags "GPS GPSLatitudeRef" = some latRef)
    (h4 : tagsGet tags "GPS GPSLongitudeRef" = some lonRef)
    (hc : convert_gps gpsLat.values latRef.printable = .error e) :
    gpsStep tags m = .error e := by
  unfold gpsStep
  simp only [h1, h2, h3, h4, hc]

theorem extract_exif_ok_elim (tags : List (String × ExifVal)) (ex : Dict)
    (h : extract_exif_metadata tags = .ok ex) :
    ∃ m1, gpsStep tags (exifBase tags) = .ok m1 ∧
      ex = setKey (setKey m1 "Camera Model" (cameraModelVal tags))
        "Software" (softwareVal tags) := by
  unfold extract_exif_metadata at h
  split at h
  · exact absurd h (by simp)
  · rename_i m1 heq
    exact ⟨m1, heq, (Except.ok.inj h).symm⟩

theorem extract_exif_err (tags : List (String × ExifVal)) (e : PyErr)
    (h : gpsStep tags (exifBase tags) = .error e) :
    extract_exif_metadata tags = .error e := by
  unfold extract_exif_metadata
  rw [h]

theorem nodupKeys_extract_exif (tags : List (String × ExifVal)) (ex : Dict)
    (h : extract_exif_metadata tags = .ok ex) : NodupKeys ex := by
  obtain ⟨m1, hg, hex⟩ := extract_exif_ok_elim tags ex h
  have hm1 : NodupKeys m1 := by
    rcases gpsStep_ok_cases tags (exifBase tags) m1 hg with rfl | ⟨s, rfl⟩
    · exact nodupKeys_exifBase tags
    · exact nodupKeys_setKey _ _ _ (nodupKeys_exifBase tags)
  rw [hex]
  exact nodupKeys_setKey _ _ _ (nodupKeys_setKey _ _ _ hm1)

/-- The keys the container-header stage can assign (lines 26–33). -/
def pilWrittenKeys : List String :=
  ["Format", "Mode", "Size (pixels)", "Bit Depth", "Compression",
   "ICC Profile", "PIL Error"]

theorem keys_pilStage (env : Env) (m : Dict) (a : String)
    (h : a ∈ keys (pilStage env m)) : a ∈ keys m ∨ a ∈ pilWrittenKeys := by
  unfold pilStage at h
  split at h
  · rcases mem_keys_setKey _ _ _ _ h with h | rfl
    · rcases mem_keys_setKey _ _ _ _ h with h | rfl
      · rcases mem_keys_setKey _ _ _ _ h with h | rfl
        · rcases mem_keys_setKey _ _ _ _ h with h | rfl
          · rcases mem_keys_setKey _ _ _ _ h with h | rfl
            · rcases mem_keys_setKey _ _ _ _ h with h | rfl
              · exact Or.inl h
              · right; simp [pilWrittenKeys]
            · right; simp [pilWrittenKeys]
          · right; simp [pilWrittenKeys]
        · right; simp [pilWrittenKeys]
      · right; simp [pilWrittenKeys]
    · right; simp [pilWrittenKeys]
  · rcases mem_keys_setKey _ _ _ _ h with h | rfl
    · exact Or.inl h
    · right; simp [pilWrittenKeys]

theorem getKey_pilStage_of_ne (env : Env) (m : Dict) (k : String)
    (h : k ∉ pilWrittenKeys) : getKey (pilStage env m) k = getKey m k := by
  simp only [pilWrittenKeys, List.mem_cons, List.mem_singleton, not_or] at h
  obtain ⟨h1, h2, h3, h4, h5, h6, h7⟩ := h
  unfold pilStage
  split
  · simp [getKey_setKey, h1, h2, h3, h4, h5, h6]
  · simp [getKey_setKey, h7]

theorem extract_heic (path : String) (env : Env)
    (h : pyEndsWith (pyLower path) ".heic" = true) :
    extract_image_metadata path env =
      .ok (updateDict (pilStage env (seedRecord env))
        (extract_hidden_metadata env.hachoir)) := by
  unfold extract_image_metadata
  rw [h]
  rfl

theorem extract_not_heic_ok (path : String) (env : Env) (ex : Dict)
    (h : pyEndsWith (pyLower path) ".heic" = false)
    (he : extract_exif_metadata env.tags = .ok ex) :
    extract_image_metadata path env =
      .ok (updateDict (updateDict (pilStage env (seedRecord env)) ex)
        (extract_hidden_metadata env.hachoir)) := by
  unfold extract_image_metadata
  rw [h, he]
  rfl

theorem extract_not_heic_err (path : String) (env : Env) (e : PyErr)
    (h : pyEndsWith (pyLower path) ".heic" = false)
    (he : extract_exif_metadata env.tags = .error e) :
    extract_image_metadata path env = .error e := by
  unfold extract_image_metadata
  rw [h, he]
  rfl

/-! ## Evaluation of the GPS converter on well-formed input -/

theorem convert_to_degrees_eval (a b c : Rat2)
    (ha : a.den ≠ 0) (hb : b.den ≠ 0) (hc : c.den ≠ 0) :
    convert_to_degrees [a, b, c] =
      .ok (ratDiv a + ratDiv b / 60 + ratDiv c / 3600) := by
  unfold convert_to_degrees
  have hany : ([a, b, c].any (fun v => v.den = 0)) = false := by
    simp [ha, hb, hc]
  rw [hany]
  simp

/-- The converter on a well-formed three-rational list: the d/m/s formula,
negated exactly for the `"S"` and `"W"` hemisphere references. -/
theorem convert_gps_eval (a b c : Rat2) (ref : String)
    (ha : a.den ≠ 0) (hb : b.den ≠ 0) (hc : c.den ≠ 0) :
    convert_gps [a, b, c] ref =
      .ok ((if ref = "S" ∨ ref = "W" then -1 else 1) *
        (ratDiv a + ratDiv b / 60 + ratDiv c / 3600)) := by
  unfold convert_gps
  rw [convert_to_degrees_eval a b c ha hb hc]
  by_cases hr : ref = "S" ∨ ref = "W"
  · simp [hr]
  · simp [hr]

/-! ## Concrete fixtures -/

/-- A tag dict holding all four GPS tags, whose latitude value contains a
zero-denominator rational. -/
def zeroDenTags : List (String × ExifVal) :=
  [("GPS GPSLatitude", ⟨"[35, 30, 0]", [⟨35, 0⟩, ⟨30, 1⟩, ⟨0, 1⟩]⟩),
   ("GPS GPSLongitude", ⟨"[139, 0, 0]", [⟨139, 1⟩, ⟨0, 1⟩, ⟨0, 1⟩]⟩),
   ("GPS GPSLatitudeRef", ⟨"N", []⟩),
   ("GPS GPSLongitudeRef", ⟨"E", []⟩)]

/-- A readable `.jpg` input whose container-header decoding fails, whose
EXIF segment holds `zeroDenTags`, and whose deep scan finds no parser. -/
def envZeroDen : Env :=
  ⟨"f.jpg", 100, "ct", "mt", .error "cannot identify image file",
    zeroDenTags, .createNone⟩

/-- An input where the container-header reader, the EXIF decoder and the
deep scanner each produce the key `"Format"` with pairwise distinct
values (`"PNG"`, `"ExifFmt"`, `"DeepFmt"`). -/
def envMerge : Env :=
  ⟨"f.png", 100, "ct", "mt", .ok ⟨"PNG", "RGB", 10, 20, some 8, none, false⟩,
    [("Format", ⟨"ExifFmt", []⟩)], .exportLines ["Format: DeepFmt"]⟩

/-- A `.HEIC` input whose deep scan itself reports a `"GPS Coordinates"`
line (and whose EXIF tags would raise if they were ever decoded). -/
def envHeic : Env :=
  ⟨"f.HEIC", 100, "ct", "mt", .error "cannot identify image file",
    zeroDenTags, .exportLines ["GPS Coordinates: 1.0, 2.0"]⟩

/-! ## The claims -/

/-- C5: for every list of exactly three rationals with non-zero
denominators, `convert_gps` returns `d + m/60 + s/3600` with each
component `numerator/denominator`, negated exactly when the hemisphere
reference is `"S"` or `"W"`. -/
theorem convert_gps_formula (a b c : Rat2) (ref : String)
    (ha : a.den ≠ 0) (hb : b.den ≠ 0) (hc : c.den ≠ 0) :
    convert_gps [a, b, c] ref =
      .ok ((if ref = "S" ∨ ref = "W" then -1 else 1) *
        (ratDiv a + ratDiv b / 60 + ratDiv c / 3600)) :=
  convert_gps_eval a b c ref ha hb hc

/-- C5 witness: `convert([(35,1),(30,1),(0,1)], "N") = 35.5` and
`convert([(35,1),(30,1),(0,1)], "S") = -35.5`. -/
theorem convert_gps_formula_witness :
    convert_gps [⟨35, 1⟩, ⟨30, 1⟩, ⟨0, 1⟩] "N" = .ok (35.5 : ℚ) ∧
    convert_gps [⟨35, 1⟩, ⟨30, 1⟩, ⟨0, 1⟩] "S" = .ok (-35.5 : ℚ) := by
  constructor
  · rw [convert_gps_formula ⟨35, 1⟩ ⟨30, 1⟩ ⟨0, 1⟩ "N"
      (by decide) (by decide) (by decide),
      if_neg (by decide : ¬(("N" : String) = "S" ∨ ("N" : String) = "W"))]
    simp only [Except.ok.injEq]
    norm_num [ratDiv]
  · rw [convert_gps_formula ⟨35, 1⟩ ⟨30, 1⟩ ⟨0, 1⟩ "S"
      (by decide) (by decide) (by decide),
      if_pos (by decide : (("S" : String) = "S" ∨ ("S" : String) = "W"))]
    simp only [Except.ok.injEq]
    norm_num [ratDiv]

/-- C8: GPS conversion is sign-symmetric on every valid three-rational
input: the `"N"` result is the negation of the `"S"` result, and the
`"E"` result the negation of the `"W"` result. -/
theorem convert_gps_sign_symmetric (a b c : Rat2)
    (ha : a.den ≠ 0) (hb : b.den ≠ 0) (hc : c.den ≠ 0) :
    ∃ q : ℚ,
      convert_gps [a, b, c] "N" = .ok q ∧
      convert_gps [a, b, c] "S" = .ok (-q) ∧
      convert_gps [a, b, c] "E" = .ok q ∧
      convert_gps [a, b, c] "W" = .ok (-q) := by
  refine ⟨ratDiv a + ratDiv b / 60 + ratDiv c / 3600, ?_, ?_, ?_, ?_⟩
  · rw [convert_gps_eval a b c "N" ha hb hc,
      if_neg (by decide : ¬(("N" : String) = "S" ∨ ("N" : String) = "W"))]
    norm_num
  · rw [convert_gps_eval a b c "S" ha hb hc,
      if_pos (by decide : (("S" : String) = "S" ∨ ("S" : String) = "W"))]
    norm_num
  · rw [convert_gps_eval a b c "E" ha hb hc,
      if_neg (by decide : ¬(("E" : String) = "S" ∨ ("E" : String) = "W"))]
    norm_num
  · rw [convert_gps_eval a b c "W" ha hb hc,
      if_pos (by decide : (("W" : String) = "S" ∨ ("W" : String) = "W"))]
    norm_num

/-- C8 witness at `[(35,1),(30,1),(0,1)]`. -/
theorem convert_gps_sign_symmetric_witness :
    ∃ q : ℚ,
      convert_gps [⟨35, 1⟩, ⟨30, 1⟩, ⟨0, 1⟩] "N" = .ok q ∧
      convert_gps [⟨35, 1⟩, ⟨30, 1⟩, ⟨0, 1⟩] "S" = .ok (-q) ∧
      convert_gps [⟨35, 1⟩, ⟨30, 1⟩, ⟨0, 1⟩] "E" = .ok q ∧
      convert_gps [⟨35, 1⟩, ⟨30, 1⟩, ⟨0, 1⟩] "W" = .ok (-q) :=
  convert_gps_sign_symmetric ⟨35, 1⟩ ⟨30, 1⟩ ⟨0, 1⟩
    (by decide) (by decide) (by decide)

/-- C9: the converter does not validate the hemisphere reference: for
every valid three-rational input, any reference other than `"S"` and
`"W"` (e.g. `"X"` or `""`) gives the same non-negated result as `"N"`. -/
theorem convert_gps_ignores_unknown_ref (a b c : Rat2) (ref : String)
    (ha : a.den ≠ 0) (hb : b.den ≠ 0) (hc : c.den ≠ 0)
    (h1 : ref ≠ "S") (h2 : ref ≠ "W") :
    convert_gps [a, b, c] ref = convert_gps [a, b, c] "N" := by
  rw [convert_gps_eval a b c ref ha hb hc, convert_gps_eval a b c "N" ha hb hc]
  simp [h1, h2]

/-- C9 witness: the references `"X"` and `""` behave like `"N"`. -/
theorem convert_gps_ignores_unknown_ref_witness :
    convert_gps [⟨35, 1⟩, ⟨30, 1⟩, ⟨0, 1⟩] "X" =
      convert_gps [⟨35, 1⟩, ⟨30, 1⟩, ⟨0, 1⟩] "N" ∧
    convert_gps [⟨35, 1⟩, ⟨30, 1⟩, ⟨0, 1⟩] "" =
      convert_gps [⟨35, 1⟩, ⟨30, 1⟩, ⟨0, 1⟩] "N" :=
  ⟨convert_gps_ignores_unknown_ref ⟨35, 1⟩ ⟨30, 1⟩ ⟨0, 1⟩ "X"
      (by decide) (by decide) (by decide) (by decide) (by decide),
   convert_gps_ignores_unknown_ref ⟨35, 1⟩ ⟨30, 1⟩ ⟨0, 1⟩ ""
      (by decide) (by decide) (by decide) (by decide) (by decide)⟩

/-- C2 counterexample: on the empty tag dict (a byte stream with no EXIF
segment) the decoder does not return an empty mapping: it returns the
two defaulted entries. -/
theorem exif_no_segment_cex :
    extract_exif_metadata [] =
      .ok [("Camera Model", "Unknown"), ("Software", "Unknown")] ∧
    ([("Camera Model", "Unknown"), ("Software", "Unknown")] : Dict) ≠ [] :=
  ⟨rfl, by decide⟩

/-- C2 (amended): on a byte stream with no EXIF segment the decoder does
not raise and returns the mapping holding exactly the two defaulted
entries `"Camera Model" = "Unknown"` and `"Software" = "Unknown"`. -/
theorem exif_no_segment :
    extract_exif_metadata [] =
      .ok [("Camera Model", "Unknown"), ("Software", "Unknown")] := rfl

/-- C3 counterexample: with all four GPS tags present and a
zero-denominator latitude rational, the decoder raises
(`ZeroDivisionError`) instead of omitting `"GPS Coordinates"` and
returning the rest of the mapping. -/
theorem gps_failure_not_caught_cex :
    extract_exif_metadata zeroDenTags = .error PyErr.zeroDivision := rfl

/-- C3 (amended): a GPS conversion failure is NOT caught at the decoder
boundary: when all four GPS tags are present and the latitude conversion
fails, the whole EXIF stage fails with that error (the synthetic key is
omitted only when one of the four tags is absent). -/
theorem gps_failure_propagates (tags : List (String × ExifVal))
    (gpsLat gpsLon latRef lonRef : ExifVal) (e : PyErr)
    (h1 : tagsGet tags "GPS GPSLatitude" = some gpsLat)
    (h2 : tagsGet tags "GPS GPSLongitude" = some gpsLon)
    (h3 : tagsGet tags "GPS GPSLatitudeRef" = some latRef)
    (h4 : tagsGet tags "GPS GPSLongitudeRef" = some lonRef)
    (hc : convert_gps gpsLat.values latRef.printable = .error e) :
    extract_exif_metadata tags = .error e :=
  extract_exif_err tags e
    (gpsStep_err tags (exifBase tags) gpsLat gpsLon latRef lonRef e h1 h2 h3 h4 hc)

/-- C3 witness: the propagation at the concrete malformed tag dict. -/
theorem gps_failure_propagates_witness :
    extract_exif_metadata zeroDenTags = .error PyErr.zeroDivision :=
  gps_failure_propagates zeroDenTags
    ⟨"[35, 30, 0]", [⟨35, 0⟩, ⟨30, 1⟩, ⟨0, 1⟩]⟩
    ⟨"[139, 0, 0]", [⟨139, 1⟩, ⟨0, 1⟩, ⟨0, 1⟩]⟩
    ⟨"N", []⟩ ⟨"E", []⟩ PyErr.zeroDivision rfl rfl rfl rfl rfl

/-- C4: every exception the hachoir collaborator raises inside the
scanner's `try` block (parser construction, metadata extraction, or the
export/iteration step) is caught and turned into the single-entry record
`{"Hidden Metadata Error": msg}`; the scanner itself is a total function
and never propagates a failure. -/
theorem hidden_error_single_entry (msg : String) :
    extract_hidden_metadata (.createRaise msg) =
      [("Hidden Metadata Error", msg)] ∧
    extract_hidden_metadata (.extractRaise msg) =
      [("Hidden Metadata Error", msg)] ∧
    extract_hidden_metadata (.exportRaise msg) =
      [("Hidden Metadata Error", msg)] ∧
    ([("Hidden Metadata Error", msg)] : Dict).length = 1 :=
  ⟨rfl, rfl, rfl, rfl⟩

/-- C10: the container-header stage only ever writes the seven keys of
`pilWrittenKeys`, and the four filesystem-seeded entries keep the values
set at seeding. -/
theorem pilStage_frame (env : Env) :
    (∀ k, k ∈ keys (pilStage env (seedRecord env)) →
       k ∈ keys (seedRecord env) ∨ k ∈ pilWrittenKeys) ∧
    getKey (pilStage env (seedRecord env)) "File Name" = some env.basename ∧
    getKey (pilStage env (seedRecord env)) "File Size (bytes)" =
      some (toString env.fileSize) ∧
    getKey (pilStage env (seedRecord env)) "Creation Time" = some env.ctime ∧
    getKey (pilStage env (seedRecord env)) "Modification Time" =
      some env.mtime := by
  refine ⟨fun k hk => keys_pilStage env _ k hk, ?_, ?_, ?_, ?_⟩ <;>
    rw [getKey_pilStage_of_ne _ _ _ (by decide)] <;> rfl

/-- C1 counterexample: a readable input on which the container-header
stage fails (and is embedded as `"PIL Error"` by the code), but the EXIF
stage's GPS conversion raises — and `extract_image_metadata` returns the
hard error instead of a record. -/
theorem extract_fails_cex :
    extract_image_metadata "f.jpg" envZeroDen = .error PyErr.zeroDivision := rfl

/-- C1 (amended): the aggregator returns a record exactly when the EXIF
stage is skipped (`.heic` extension) or does not raise; a failure of the
container-header stage or of the deep-scan stage never prevents a record
(both are embedded), but a failure inside the EXIF-decoding stage
propagates to the caller as a hard error. -/
theorem extract_ok_iff (path : String) (env : Env) :
    (∃ d, extract_image_metadata path env = .ok d) ↔
      (pyEndsWith (pyLower path) ".heic" = true ∨
       ∃ ex, extract_exif_metadata env.tags = .ok ex) := by
  cases hc : pyEndsWith (pyLower path) ".heic"
  · cases he : extract_exif_metadata env.tags with
    | error e =>
        constructor
        · rintro ⟨d, hd⟩
          rw [extract_not_heic_err path env e hc he] at hd
          exact absurd hd (by simp)
        · rintro (h | ⟨ex, hex⟩)
          · exact absurd h (by simp)
          · exact absurd hex (by simp)
    | ok ex =>
        constructor
        · intro _
          exact Or.inr ⟨ex, rfl⟩
        · intro _
          exact ⟨_, extract_not_heic_ok path env ex hc he⟩
  · constructor
    · intro _
      exact Or.inl rfl
    · intro _
      exact ⟨_, extract_heic path env hc⟩

/-- C6: if the lowered path ends in `".heic"` the EXIF stage is skipped,
so any `"GPS Coordinates"` entry of the result comes verbatim from the
deep scanner; otherwise the EXIF decoder is invoked (its errors
propagate) and its output is merged (visible in the result at every key
the deep scanner does not shadow). -/
theorem heic_skip_rule (path : String) (env : Env) :
    (pyEndsWith (pyLower path) ".heic" = true →
      ∀ d, extract_image_metadata path env = .ok d →
        ∀ v, getKey d "GPS Coordinates" = some v →
          getKey (extract_hidden_metadata env.hachoir) "GPS Coordinates" =
            some v) ∧
    (pyEndsWith (pyLower path) ".heic" = false →
      (∀ e, extract_exif_metadata env.tags = .error e →
        extract_image_metadata path env = .error e) ∧
      (∀ ex k v, extract_exif_metadata env.tags = .ok ex →
        getKey ex k = some v →
        getKey (extract_hidden_metadata env.hachoir) k = none →
        ∃ d, extract_image_metadata path env = .ok d ∧ getKey d k = some v)) := by
  constructor
  · intro hc d hd v hv
    rw [extract_heic path env hc] at hd
    have hd' := (Except.ok.inj hd).symm
    subst hd'
    rw [getKey_updateDict] at hv
    cases hl : lookupLast (extract_hidden_metadata env.hachoir)
        "GPS Coordinates" with
    | some w =>
        rw [hl] at hv
        rw [← lookupLast_eq_getKey _ (nodupKeys_extract_hidden env.hachoir), hl]
        exact hv
    | none =>
        rw [hl] at hv
        have hnone :
            getKey (pilStage env (seedRecord env)) "GPS Coordinates" = none := by
          rw [getKey_eq_none]
          intro hmem
          rcases keys_pilStage env _ _ hmem with hseed | hpil
          · have hks : keys (seedRecord env) =
                ["File Name", "File Size (bytes)", "Creation Time",
                 "Modification Time"] := rfl
            rw [hks] at hseed
            exact absurd hseed (by decide)
          · exact absurd hpil (by decide)
        rw [hnone] at hv
        exact absurd hv (by simp)
  · intro hc
    constructor
    · exact fun e he => extract_not_heic_err path env e hc he
    · intro ex k v hex hk hnone
      refine ⟨_, extract_not_heic_ok path env ex hc hex, ?_⟩
      have hl : lookupLast (extract_hidden_metadata env.hachoir) k = none := by
        rw [lookupLast_eq_getKey _ (nodupKeys_extract_hidden env.hachoir)]
        exact hnone
      have hle : lookupLast ex k = some v := by
        rw [lookupLast_eq_getKey _ (nodupKeys_extract_exif env.tags ex hex)]
        exact hk
      simp only [getKey_updateDict, hl, hle]

/-- C7: the merge is last-wins in the fixed stage order: when the
container-header stage, the EXIF decoder and the deep scanner each
produce the key `X` with pairwise distinct values, the final record
holds the deep scanner's value at `X`. -/
theorem merge_last_wins (path : String) (env : Env) (X vp ve vd : String)
    (ex : Dict)
    (hheic : pyEndsWith (pyLower path) ".heic" = false)
    (_hpil : getKey (pilStage env (seedRecord env)) X = some vp)
    (hex : extract_exif_metadata env.tags = .ok ex)
    (_hx : getKey ex X = some ve)
    (hh : getKey (extract_hidden_metadata env.hachoir) X = some vd)
    (_hne1 : vp ≠ ve) (_hne2 : ve ≠ vd) (_hne3 : vp ≠ vd) :
    ∃ d, extract_image_metadata path env = .ok d ∧ getKey d X = some vd := by
  refine ⟨_, extract_not_heic_ok path env ex hheic hex, ?_⟩
  have hl : lookupLast (extract_hidden_metadata env.hachoir) X = some vd := by
    rw [lookupLast_eq_getKey _ (nodupKeys_extract_hidden env.hachoir)]
    exact hh
  simp only [getKey_updateDict, hl]

/-- C7 witness: at `envMerge` the three stages produce `"Format"` as
`"PNG"`, `"ExifFmt"`, `"DeepFmt"`, and the final record holds the deep
scanner's `"DeepFmt"`. -/
theorem merge_last_wins_witness :
    ∃ d, extract_image_metadata "f.png" envMerge = .ok d ∧
      getKey d "Format" = some "DeepFmt" :=
  merge_last_wins "f.png" envMerge "Format" "PNG" "ExifFmt" "DeepFmt"
    [("Format", "ExifFmt"), ("Camera Model", "Unknown"),
     ("Software", "Unknown")]
    rfl rfl rfl rfl rfl (by decide) (by decide) (by decide)

/-- C6 witness: a `.HEIC` path skips the EXIF stage (its malformed GPS
tags are never decoded) and the only `"GPS Coordinates"` entry is the
deep scanner's; and a `.png` path invokes the decoder and merges its
unshadowed `"Camera Model"` key. -/
theorem heic_skip_rule_witness :
    (∀ d, extract_image_metadata "f.HEIC" envHeic = .ok d →
      ∀ v, getKey d "GPS Coordinates" = some v →
        getKey (extract_hidden_metadata envHeic.hachoir) "GPS Coordinates" =
          some v) ∧
    (∃ d, extract_image_metadata "f.png" envMerge = .ok d ∧
      getKey d "Camera Model" = some "Unknown") :=
  ⟨fun d hd v hv => (heic_skip_rule "f.HEIC" envHeic).1 rfl d hd v hv,
   (heic_skip_rule "f.png" envMerge).2 rfl |>.2
     [("Format", "ExifFmt"), ("Camera Model", "Unknown"),
      ("Software", "Unknown")]
     "Camera Model" "Unknown" rfl rfl rfl⟩
